import Mathlib

/-!
Verification development for the Pokémon memory game
(src/js/app.js and src/js/pokemon.js).

The JavaScript sources are shallowly embedded below:
pure functions become Lean functions, the module-level mutable state of
app.js becomes an explicit `GameState` record threaded through the event
handlers, asynchronous fetch results become explicit `Option`/`Except`
inputs, and each `setTimeout` callback becomes a separate transition
(`resolveMismatch` for the mismatch timer, the `completePending` flag for
the scheduled completion message).  Strings are modelled as `List Char`,
with the JS uppercase primitive modelled including its one-to-many
special casings.
-/

/-- Constant `CARD_COUNT` from src/js/app.js line 12. -/
def CARD_COUNT : Nat := 12

/-- Constant `TOTAL_PAIRS` from src/js/app.js line 13. -/
def TOTAL_PAIRS : Nat := 6

/-- Normalized creature record as built by `processPokemonData`
(src/js/pokemon.js lines 66-83).  Only the fields read by the verified
logic are carried; `id` is the field that drives matching. -/
structure Pokemon where
  id : Nat
  name : String
  sprite : String
  types : List String
  abilities : List String
deriving DecidableEq

instance : Inhabited Pokemon := ⟨⟨0, "", "", [], []⟩⟩

/-- One card element of the grid: the `flipped` and `matched` CSS classes
and the `dataset.pokemon` binding (unset until assignment). -/
structure Card where
  flipped : Bool
  matched : Bool
  pokemon : Option Pokemon
deriving DecidableEq

instance : Inhabited Card := ⟨⟨false, false, none⟩⟩

/-- The module-level mutable state of src/js/app.js lines 16-20:
`cards`, `firstSelectedCard`, `secondSelectedCard`, `isProcessingPair`,
`matchedPairs`.  `completePending` records that `showGameComplete` has
been scheduled (src/js/app.js line 312). -/
structure GameState where
  cards : List Card
  firstSelectedCard : Option Nat
  secondSelectedCard : Option Nat
  isProcessingPair : Bool
  matchedPairs : Nat
  completePending : Bool
deriving DecidableEq

/-! ## Name normalization (src/js/pokemon.js lines 101-103) -/

/-- JS `string.replace` for the single-character pattern `-`: replace
the first occurrence of `-` by a space, as performed inside
`capitalizeFirstLetter`. -/
def replaceFirstDash : List Char → List Char
  | [] => []
  | c :: rest => if c = '-' then ' ' :: rest else c :: replaceFirstDash rest

/-- JS `String.prototype.toUpperCase` on a one-character string (the
`charAt(0).toUpperCase()` step of `capitalizeFirstLetter`).  ECMAScript
prescribes the Unicode full uppercase mapping, which is one-to-many for
a few characters (Unicode SpecialCasing): those expanding Latin cases
are listed here, and every other character maps to one single uppercase
character, written `Char.toUpper` — which single character comes back
is irrelevant to every property proved below, only that it is one
character. -/
def jsToUpperChar (c : Char) : List Char :=
  if c = 'ß' then ['S', 'S']
  else if c = 'ﬀ' then ['F', 'F']
  else if c = 'ﬁ' then ['F', 'I']
  else if c = 'ﬂ' then ['F', 'L']
  else if c = 'ﬃ' then ['F', 'F', 'I']
  else if c = 'ﬄ' then ['F', 'F', 'L']
  else if c = 'ﬅ' then ['S', 'T']
  else if c = 'ﬆ' then ['S', 'T']
  else [c.toUpper]

/-- Function `capitalizeFirstLetter` (src/js/pokemon.js lines 101-103):
`string.charAt(0).toUpperCase() + string.replace('-', ' ').slice(1)`.
On the empty string every JS operation yields the empty string; on a
nonempty string the first character's uppercase expansion (possibly
several characters) is prepended to the separator-replaced tail. -/
def capitalizeFirstLetter (s : List Char) : List Char :=
  match s with
  | [] => []
  | c :: _ => jsToUpperChar c ++ (replaceFirstDash s).drop 1

/-- Modelled from the spec's words, for comparison with the code:
"normalizes exactly the first character to uppercase and replaces the
first occurring separator character with a space". -/
def specCapitalize (s : List Char) : List Char :=
  match replaceFirstDash s with
  | [] => []
  | c :: rest => jsToUpperChar c ++ rest

/-! ## Fetch pipeline (src/js/pokemon.js lines 16-59) -/

/-- Function `fetchMultipleRandomPokemon` (src/js/pokemon.js lines 43-59).
`outcome i` is the settled result of the `i`-th call to
`fetchRandomPokemon`, which returns the processed record on success and
`null` (here `none`) on any failure (lines 16-36).  The function awaits
all `count` calls in issue order and filters out the null responses;
its own catch block is unreachable because no awaited promise rejects. -/
def fetchMultipleRandomPokemon (count : Nat) (outcome : Nat → Option Pokemon) : List Pokemon :=
  ((List.range count).map outcome).filterMap (fun x => x)

/-! ## Pair building and Fisher-Yates shuffle (src/js/app.js lines 104-155) -/

/-- The pair-building loop of `fetchAndAssignPokemon`
(src/js/app.js lines 110-116): push two value copies of each entity. -/
def buildPairs : List Pokemon → List Pokemon
  | [] => []
  | p :: rest => p :: p :: buildPairs rest

/-- One iteration body of the Fisher-Yates loop
(src/js/app.js line 151): the destructuring swap of positions `i` and
`j`, which in the source are always in bounds. -/
def swapAt {α : Type} [Inhabited α] (l : List α) (i j : Nat) : List α :=
  if i < l.length ∧ j < l.length then
    (l.set i (l.getD j default)).set j (l.getD i default)
  else l

/-- The Fisher-Yates loop of `shuffleArray` (src/js/app.js lines 149-152),
running the index down from `i` to `1`.  `rand i` models the value
`Math.floor(Math.random() * (i + 1))` drawn at loop index `i`; in every
real execution `rand i ≤ i`. -/
def fyLoop {α : Type} [Inhabited α] (rand : Nat → Nat) : Nat → List α → List α
  | 0, l => l
  | i + 1, l => fyLoop rand i (swapAt l (i + 1) (rand (i + 1)))

/-- Function `shuffleArray` (src/js/app.js lines 144-155): operate on a copy of the
array (values are immutable here, so the copy is implicit) and run the
loop from `length - 1` down to `1`. -/
def shuffleArray {α : Type} [Inhabited α] (rand : Nat → Nat) (array : List α) : List α :=
  fyLoop rand (array.length - 1) array

/-- The spec's `buildShuffledPairs`: the pair-building loop followed by
the `shuffleArray` call of `fetchAndAssignPokemon`
(src/js/app.js lines 110-119). -/
def buildShuffledPairs (rand : Nat → Nat) (entities : List Pokemon) : List Pokemon :=
  shuffleArray rand (buildPairs entities)

/-! ## Seeding (src/js/app.js lines 29-64 and 104-137) -/

/-- A fresh card element from `createCardElement`: no classes, no
binding. -/
def blankCard : Card := { flipped := false, matched := false, pokemon := none }

/-- Function `createCardElements` (src/js/app.js lines 53-64): `CARD_COUNT` fresh
cards. -/
def createCardElements : List Card := List.replicate CARD_COUNT blankCard

/-- The assignment loop of `fetchAndAssignPokemon`
(src/js/app.js lines 127-131): assign `shuffledPairs[i]` to `cards[i]`
for `i` below the length of both lists, leaving later cards untouched. -/
def assignToCards : List Card → List Pokemon → List Card
  | cs, [] => cs
  | [], _ => []
  | c :: cs, p :: ps => { c with pokemon := some p } :: assignToCards cs ps

/-- Function `fetchAndAssignPokemon` (src/js/app.js lines 104-137).  `res` is the
settled result of `PokemonService.fetchMultipleRandomPokemon(6)`: an
`Except.error` input models a rejection of the awaited promise, which is
the only way the catch block (and `showErrorMessage`) can run.  The
returned flag records whether `showErrorMessage` was called. -/
def fetchAndAssignPokemon (res : Except String (List Pokemon)) (rand : Nat → Nat)
    (cs : List Card) : List Card × Bool :=
  match res with
  | Except.ok pokemonList => (assignToCards cs (buildShuffledPairs rand pokemonList), false)
  | Except.error _ => (cs, true)

/-- What `initApp` leaves on screen: the game state, whether the error
message container was added, and whether the card grid was unhidden
("ready"). -/
structure AppView where
  state : GameState
  errorShown : Bool
  gridShown : Bool
deriving DecidableEq

/-- Function `initApp` (src/js/app.js lines 29-48): create the card elements, run
`fetchAndAssignPokemon`, then unconditionally hide the spinner and show
the grid. -/
def initApp (res : Except String (List Pokemon)) (rand : Nat → Nat) : AppView :=
  let cs := createCardElements
  let r := fetchAndAssignPokemon res rand cs
  { state :=
      { cards := r.1, firstSelectedCard := none, secondSelectedCard := none,
        isProcessingPair := false, matchedPairs := 0, completePending := false },
    errorShown := r.2, gridShown := true }

/-! ## Click handling and match resolution (src/js/app.js lines 233-345) -/

/-- Read `cards[i]` (out-of-range reads never happen on the event paths,
where the index always comes from an existing card element). -/
def getCard (s : GameState) (i : Nat) : Card := s.cards.getD i default

/-- Replace `cards[i]` by `g cards[i]` (a classList mutation on one
card). -/
def modifyCard (s : GameState) (i : Nat) (g : Card → Card) : GameState :=
  { s with cards := s.cards.set i (g (getCard s i)) }

/-- The call `card.classList.add('flipped')` on card `i`. -/
def flipCard (s : GameState) (i : Nat) : GameState :=
  modifyCard s i (fun k => { k with flipped := true })

/-- The call `card.classList.remove('flipped')` on card `i`. -/
def unflipCard (s : GameState) (i : Nat) : GameState :=
  modifyCard s i (fun k => { k with flipped := false })

/-- The call `card.classList.add('matched')` on card `i`. -/
def matchCard (s : GameState) (i : Nat) : GameState :=
  modifyCard s i (fun k => { k with matched := true })

/-- Function `resetSelection` (src/js/app.js lines 342-345). -/
def resetSelection (s : GameState) : GameState :=
  { s with firstSelectedCard := none, secondSelectedCard := none }

/-- The completion check of `handleMatch` (src/js/app.js lines 311-313):
when the counter reaches `TOTAL_PAIRS`, `showGameComplete` is
scheduled. -/
def checkComplete (s : GameState) : GameState :=
  if s.matchedPairs = TOTAL_PAIRS then { s with completePending := true } else s

/-- Function `handleMatch` (src/js/app.js lines 302-317).  `f` and `c` are the
indices of `firstSelectedCard` and `secondSelectedCard` at the (only)
call site: mark both matched, increment the counter, check completion,
reset the selection. -/
def handleMatch (s : GameState) (f c : Nat) : GameState :=
  resetSelection (checkComplete
    { matchCard (matchCard s f) c with matchedPairs := s.matchedPairs + 1 })

/-- The synchronous part of `handleNonMatch` (src/js/app.js lines
322-337): engage the processing lock; the flip-back runs later in the
scheduled timeout, modelled by `resolveMismatch`. -/
def handleNonMatch (s : GameState) : GameState :=
  { s with isProcessingPair := true }

/-- The `setTimeout` callback of `handleNonMatch`
(src/js/app.js lines 327-336): flip both selected cards back, reset the
selection, release the lock.  The timer is pending exactly while
`isProcessingPair` is set, and on every state the source can reach with
the lock set both selections are populated; the catch-all branch is
never taken there. -/
def resolveMismatch (s : GameState) : GameState :=
  if s.isProcessingPair then
    match s.firstSelectedCard, s.secondSelectedCard with
    | some f, some c =>
        { resetSelection (unflipCard (unflipCard s f) c) with isProcessingPair := false }
    | _, _ => { resetSelection s with isProcessingPair := false }
  else s

/-- Function `checkForMatch` (src/js/app.js lines 271-297) with the selected
indices `f` and `c` passed explicitly (they equal the two selection
globals at the only call site).  A card with no binding makes
`JSON.parse` throw inside the try, which is caught and answered by
`resetSelection`; bound cards are compared by `id`. -/
def checkForMatch (s : GameState) (f c : Nat) : GameState :=
  match (getCard s f).pokemon, (getCard s c).pokemon with
  | some p1, some p2 => if p1.id = p2.id then handleMatch s f c else handleNonMatch s
  | _, _ => resetSelection s

/-- Function `handleCardClick` (src/js/app.js lines 233-266) for a click landing
on card `i` (a click outside any card returns early, as does an index
with no card element).  Guard clauses ignore flipped and matched cards
and clicks during the processing lock; otherwise the card is flipped and
recorded as first or second selection, the latter triggering
`checkForMatch`. -/
def handleCardClick (s : GameState) (i : Nat) : GameState :=
  if i < s.cards.length then
    if (getCard s i).flipped || (getCard s i).matched then s
    else if s.isProcessingPair then s
    else
      match s.firstSelectedCard with
      | none => { flipCard s i with firstSelectedCard := some i }
      | some f =>
          if f = i then flipCard s i
          else checkForMatch { flipCard s i with secondSelectedCard := some i } f i
  else s

/-- Function `resetGame` (src/js/app.js lines 375-391) together with the removal
of the completion message by the play-again handler (lines 366-369):
clear all selection state and counters and strip the `matched` and
`flipped` classes from every card.  The subsequent
`fetchAndAssignPokemon()` call rebinds cards but touches none of these
fields. -/
def resetGame (s : GameState) : GameState :=
  { cards := s.cards.map (fun k => { k with matched := false, flipped := false }),
    firstSelectedCard := none, secondSelectedCard := none,
    isProcessingPair := false, matchedPairs := 0, completePending := false }

/-! ## Session semantics -/

/-- One scheduler step of the single-threaded session: either a click
event on some card index, or the pending mismatch timer firing. -/
inductive Step : GameState → GameState → Prop where
  | click (s : GameState) (i : Nat) : Step s (handleCardClick s i)
  | timer (s : GameState) : Step s (resolveMismatch s)

/-- Reachability of one session state from another by scheduler steps. -/
def Reach : GameState → GameState → Prop := Relation.ReflTransGen Step

/-- A freshly seeded deal: a full grid of hidden, unmatched cards with
all session counters at their initial values. -/
def InitSeeded (s : GameState) : Prop :=
  s.cards.length = CARD_COUNT ∧
  (∀ c ∈ s.cards, c.flipped = false ∧ c.matched = false) ∧
  s.firstSelectedCard = none ∧ s.secondSelectedCard = none ∧
  s.isProcessingPair = false ∧ s.matchedPairs = 0 ∧ s.completePending = false

instance (s : GameState) : Decidable (InitSeeded s) := by
  unfold InitSeeded; infer_instance

/-- Number of cards carrying the `matched` class. -/
def countMatched (s : GameState) : Nat := s.cards.countP (fun c => c.matched)

/-- Number of slots that received an entity binding. -/
def boundSlotCount (s : GameState) : Nat := s.cards.countP (fun c => c.pokemon.isSome)

/-- The session invariant: the grid keeps its size, the matched-pair
counter counts exactly the matched cards in pairs, the completion
message is scheduled exactly at `TOTAL_PAIRS`, and a pending first
selection always points at a flipped, unmatched card of the grid. -/
def SessionInv (s : GameState) : Prop :=
  s.cards.length = CARD_COUNT ∧
  2 * s.matchedPairs = countMatched s ∧
  (s.completePending ↔ s.matchedPairs = TOTAL_PAIRS) ∧
  ∀ f, s.firstSelectedCard = some f →
    f < s.cards.length ∧ (getCard s f).flipped = true ∧ (getCard s f).matched = false

/-! ## Concrete values used by witnesses and counterexamples -/

/-- A concrete random source that always chooses index 0 (a legitimate
value of the loop's random draw at every index). -/
def zeroRand : Nat → Nat := fun _ => 0

/-- A concrete per-call fetch outcome in which every request fails. -/
def allFail : Nat → Option Pokemon := fun _ => none

/-- A sample entity with identifier 7. -/
def mew : Pokemon := { id := 7, name := "Mew", sprite := "m", types := ["psychic"], abilities := ["Synchronize"] }

/-- A sample entity with identifier 12. -/
def butterfree : Pokemon := { id := 12, name := "Butterfree", sprite := "b", types := ["bug", "flying"], abilities := ["Compound eyes"] }

/-- A hidden unmatched card bound to `p`. -/
def hiddenCard (p : Pokemon) : Card := { flipped := false, matched := false, pokemon := some p }

/-- A freshly seeded blank-grid state (a deal in which no slot received
an entity, as after an empty batch). -/
def exInit : GameState :=
  { cards := List.replicate CARD_COUNT blankCard,
    firstSelectedCard := none, secondSelectedCard := none,
    isProcessingPair := false, matchedPairs := 0, completePending := false }

/-- A small board: two cards bound to `mew`, two to `butterfree`, all
hidden, nothing pending. -/
def exBoard : GameState :=
  { cards := [hiddenCard mew, hiddenCard mew, hiddenCard butterfree, hiddenCard butterfree],
    firstSelectedCard := none, secondSelectedCard := none,
    isProcessingPair := false, matchedPairs := 0, completePending := false }

/-- A state whose first card is already flipped. -/
def exFlipped : GameState :=
  { cards := [{ flipped := true, matched := false, pokemon := some mew }, hiddenCard mew],
    firstSelectedCard := some 0, secondSelectedCard := none,
    isProcessingPair := false, matchedPairs := 0, completePending := false }

/-- The board obtained by seeding a full 12-card grid from a single
fetched entity: the pair loop yields two bound slots, the other ten
slots stay unbound. -/
def exUnderSeeded : GameState :=
  { cards := assignToCards createCardElements (buildShuffledPairs zeroRand [mew]),
    firstSelectedCard := none, secondSelectedCard := none,
    isProcessingPair := false, matchedPairs := 0, completePending := false }

/-! ## List helper lemmas -/

theorem getD_set_self {α : Type} [Inhabited α] :
    ∀ (l : List α) (i : Nat) (a : α), i < l.length → (l.set i a).getD i default = a := by
  intro l
  induction l with
  | nil => intro i a h; simp at h
  | cons c t ih =>
    intro i a h
    cases i with
    | zero => rfl
    | succ n =>
      simp only [List.set_cons_succ, List.getD_cons_succ]
      exact ih n a (by simpa using h)

theorem getD_set_ne {α : Type} [Inhabited α] :
    ∀ (l : List α) (i j : Nat) (a : α), i ≠ j → (l.set i a).getD j default = l.getD j default := by
  intro l
  induction l with
  | nil => intro i j a _; rfl
  | cons c t ih =>
    intro i j a hne
    cases i with
    | zero =>
      cases j with
      | zero => exact absurd rfl hne
      | succ m => rfl
    | succ n =>
      cases j with
      | zero => rfl
      | succ m =>
        simp only [List.set_cons_succ, List.getD_cons_succ]
        exact ih n m a (fun h => hne (by rw [h]))

theorem getD_mem {α : Type} [Inhabited α] :
    ∀ (l : List α) (i : Nat), i < l.length → l.getD i default ∈ l := by
  intro l
  induction l with
  | nil => intro i h; simp at h
  | cons c t ih =>
    intro i h
    cases i with
    | zero => exact List.mem_cons_self c t
    | succ n =>
      simp only [List.getD_cons_succ]
      exact List.mem_cons_of_mem c (ih n (by simpa using h))

/-! ## Lemmas about the name normalization -/

theorem count_set_elem {α : Type} [DecidableEq α] [Inhabited α] :
    ∀ (l : List α) (i : Nat), i < l.length → ∀ (a x : α),
      (l.set i a).count x + (if l.getD i default = x then 1 else 0) =
        l.count x + (if a = x then 1 else 0) := by
  intro l
  induction l with
  | nil => intro i h; simp at h
  | cons c t ih =>
    intro i h a x
    cases i with
    | zero =>
      simp only [List.set_cons_zero, List.getD_cons_zero, List.count_cons, beq_iff_eq]
      exact Nat.add_right_comm (t.count x) _ _
    | succ n =>
      have hn : n < t.length := by simpa using h
      have := ih n hn a x
      simp only [List.set_cons_succ, List.getD_cons_succ, List.count_cons, beq_iff_eq]
      omega

theorem count_swapAt {α : Type} [DecidableEq α] [Inhabited α]
    (l : List α) (i j : Nat) (x : α) : (swapAt l i j).count x = l.count x := by
  unfold swapAt
  split
  · rename_i hb
    obtain ⟨hi, hj⟩ := hb
    have h1 := count_set_elem l i hi (l.getD j default) x
    have hj2 : j < (l.set i (l.getD j default)).length := by
      simpa [List.length_set] using hj
    have h2 := count_set_elem (l.set i (l.getD j default)) j hj2 (l.getD i default) x
    have hgd : (l.set i (l.getD j default)).getD j default = l.getD j default := by
      by_cases hij : i = j
      · subst hij; exact getD_set_self l i _ hi
      · exact getD_set_ne l i j _ hij
    rw [hgd] at h2
    omega
  · rfl

theorem swapAt_perm {α : Type} [DecidableEq α] [Inhabited α]
    (l : List α) (i j : Nat) : List.Perm (swapAt l i j) l :=
  List.perm_iff_count.mpr (fun x => count_swapAt l i j x)

theorem fyLoop_perm {α : Type} [DecidableEq α] [Inhabited α] (rand : Nat → Nat) :
    ∀ (i : Nat) (l : List α), List.Perm (fyLoop rand i l) l := by
  intro i
  induction i with
  | zero => intro l; rfl
  | succ n ih =>
    intro l
    exact List.Perm.trans (ih (swapAt l (n + 1) (rand (n + 1)))) (swapAt_perm l (n + 1) (rand (n + 1)))

theorem shuffleArray_perm {α : Type} [DecidableEq α] [Inhabited α]
    (rand : Nat → Nat) (l : List α) : List.Perm (shuffleArray rand l) l :=
  fyLoop_perm rand (l.length - 1) l

/-! ## Lemmas about pair building -/

theorem buildPairs_length : ∀ l : List Pokemon, (buildPairs l).length = 2 * l.length := by
  intro l
  induction l with
  | nil => rfl
  | cons p rest ih =>
    simp only [buildPairs, List.length_cons, ih]
    omega

theorem count_buildPairs (x : Nat) :
    ∀ l : List Pokemon, ((buildPairs l).map Pokemon.id).count x = 2 * ((l.map Pokemon.id).count x) := by
  intro l
  induction l with
  | nil => rfl
  | cons p rest ih =>
    simp only [buildPairs, List.map_cons, List.count_cons, ih, beq_iff_eq]
    split <;> omega

theorem filterMap_id_map_some_sublist :
    ∀ l : List (Option Pokemon), List.Sublist ((l.filterMap (fun x => x)).map some) l := by
  intro l
  induction l with
  | nil => simp
  | cons o t ih =>
    cases o with
    | none =>
      rw [show List.filterMap (fun x => x) (none :: t) = List.filterMap (fun x => x) t from rfl]
      exact List.Sublist.cons none ih
    | some a =>
      rw [show List.filterMap (fun x => x) (some a :: t) = a :: List.filterMap (fun x => x) t
        from rfl, List.map_cons]
      exact List.Sublist.cons₂ (some a) ih

/-! ## Claim theorems for the fetch pipeline and normalization -/

/-- C8 counterexample: on a name whose first character is the separator,
the code does not replace the first occurring separator with a space —
the replaced character is cut off by `slice(1)` and the original first
character is prepended again, so `"-a"` comes back unchanged while the
claimed normalization would produce `" a"`. -/
theorem capitalizeFirstLetter_leadingDash_cex :
    capitalizeFirstLetter ['-', 'a'] = ['-', 'a'] ∧
    specCapitalize ['-', 'a'] = [' ', 'a'] ∧
    ¬ capitalizeFirstLetter ['-', 'a'] = specCapitalize ['-', 'a'] := by
  exact ⟨by decide, by decide, by decide⟩

/-- C8 (amended): for every raw name string that does not begin with the
separator, `capitalizeFirstLetter` uppercases exactly the first
character and replaces the first occurring `-` with a space (so
separator-free names are otherwise unchanged and only the first of
several separators is replaced, later words keeping their case); a name
beginning with the separator is returned unchanged. -/
theorem capitalizeFirstLetter_firstDash (s : List Char) :
    capitalizeFirstLetter s = if s.head? = some '-' then s else specCapitalize s := by
  cases s with
  | nil => simp [capitalizeFirstLetter, specCapitalize, replaceFirstDash]
  | cons c rest =>
    by_cases hc : c = '-'
    · subst hc
      have hu : jsToUpperChar '-' = ['-'] := by decide
      simp [capitalizeFirstLetter, replaceFirstDash, hu]
    · simp [capitalizeFirstLetter, specCapitalize, replaceFirstDash, hc]

/-- C8 witness: a multi-word name with an interior separator evaluates
as the amended claim states. -/
theorem capitalizeFirstLetter_firstDash_witness :
    capitalizeFirstLetter ['m', 'r', '-', 'm'] =
      if (['m', 'r', '-', 'm'] : List Char).head? = some '-' then ['m', 'r', '-', 'm']
      else specCapitalize ['m', 'r', '-', 'm'] :=
  capitalizeFirstLetter_firstDash ['m', 'r', '-', 'm']

/-- C9: the batch fetcher issues `count` independent fetches, awaits
them all, and returns exactly the successful results in call order: the
result never exceeds `count` entries, is (as a sequence tagged with
`some`) a sublist of the per-call outcome sequence in issue order, and
contains precisely the values some call succeeded with; when every call
fails the result is the empty list — a valid outcome, not an error (the
function is total and never throws). -/
theorem fetchMultipleRandomPokemon_spec (count : Nat) (outcome : Nat → Option Pokemon) :
    (fetchMultipleRandomPokemon count outcome).length ≤ count ∧
    List.Sublist ((fetchMultipleRandomPokemon count outcome).map some)
      ((List.range count).map outcome) ∧
    (∀ p : Pokemon, p ∈ fetchMultipleRandomPokemon count outcome ↔
      some p ∈ (List.range count).map outcome) ∧
    ((∀ i, i < count → outcome i = none) → fetchMultipleRandomPokemon count outcome = []) := by
  refine ⟨?_, ?_, ?_, ?_⟩
  · calc (fetchMultipleRandomPokemon count outcome).length
        ≤ ((List.range count).map outcome).length :=
          List.length_filterMap_le _ _
      _ = count := by simp
  · exact filterMap_id_map_some_sublist _
  · intro p
    simp [fetchMultipleRandomPokemon, List.mem_filterMap]
  · intro h
    apply List.filterMap_eq_nil_iff.mpr
    intro a ha
    obtain ⟨i, hi, rfl⟩ := List.mem_map.mp ha
    exact h i (List.mem_range.mp hi)

/-- C9 witness: with two calls that both fail, the batch fetch returns
the empty list. -/
theorem fetchMultipleRandomPokemon_spec_witness :
    (∀ i, i < 2 → allFail i = none) ∧ fetchMultipleRandomPokemon 2 allFail = [] :=
  ⟨fun _ _ => rfl, (fetchMultipleRandomPokemon_spec 2 allFail).2.2.2 (fun _ _ => rfl)⟩

/-- C7: the shuffle returns a permutation of its input — the multiset of
records, and hence of identifiers, is preserved — for every random
source whatsoever (in particular for the real draws, which satisfy
`rand i ≤ i`); the iteration structure (index from last down to 1,
swapping position `i` with position `rand i`) is the definition of
`shuffleArray` and `fyLoop`. -/
theorem shuffleArray_is_permutation (rand : Nat → Nat) (l : List Pokemon) :
    List.Perm (shuffleArray rand l) l ∧
    List.Perm ((shuffleArray rand l).map Pokemon.id) (l.map Pokemon.id) := by
  have h := shuffleArray_perm rand l
  exact ⟨h, h.map Pokemon.id⟩

/-- C6: building shuffled pairs from `N` unique entities (for any
`N` between 1 and `CARD_COUNT / 2`) yields exactly `2 N` elements, and
each input entity's identifier occurs exactly twice among them. -/
theorem buildShuffledPairs_pairs (rand : Nat → Nat) (entities : List Pokemon)
    (_h1 : 1 ≤ entities.length) (_h2 : entities.length ≤ CARD_COUNT / 2)
    (h3 : (entities.map Pokemon.id).Nodup) :
    (buildShuffledPairs rand entities).length = 2 * entities.length ∧
    ∀ p ∈ entities, ((buildShuffledPairs rand entities).map Pokemon.id).count p.id = 2 := by
  have hperm : List.Perm (buildShuffledPairs rand entities) (buildPairs entities) :=
    shuffleArray_perm rand (buildPairs entities)
  constructor
  · rw [hperm.length_eq, buildPairs_length]
  · intro p hp
    rw [(hperm.map Pokemon.id).count_eq p.id, count_buildPairs,
      List.count_eq_one_of_mem h3 (List.mem_map_of_mem Pokemon.id hp)]

/-- C6 witness: two unique entities give four shuffled cards with the
first entity's identifier occurring exactly twice. -/
theorem buildShuffledPairs_pairs_witness :
    1 ≤ ([mew, butterfree] : List Pokemon).length ∧
    ([mew, butterfree] : List Pokemon).length ≤ CARD_COUNT / 2 ∧
    (([mew, butterfree] : List Pokemon).map Pokemon.id).Nodup ∧
    (buildShuffledPairs zeroRand [mew, butterfree]).length =
      2 * ([mew, butterfree] : List Pokemon).length ∧
    ((buildShuffledPairs zeroRand [mew, butterfree]).map Pokemon.id).count mew.id = 2 :=
  ⟨by decide, by decide, by decide,
   (buildShuffledPairs_pairs zeroRand [mew, butterfree] (by decide) (by decide) (by decide)).1,
   (buildShuffledPairs_pairs zeroRand [mew, butterfree] (by decide) (by decide) (by decide)).2
     mew (by decide)⟩

/-! ## Claim theorems for seeding -/

/-- C1 (code behaviour at the failing input): when the batch fetch
resolves with the empty list — every per-item fetch failed — the
seeding path raises nothing, so the catch block never runs: no error
message is shown, the grid is still revealed as ready, and every slot
is left unbound.  The machine silently presents an unplayable empty
board, contradicting the claim. -/
theorem initApp_emptyBatch_silent :
    (initApp (Except.ok []) zeroRand).errorShown = false ∧
    (initApp (Except.ok []) zeroRand).gridShown = true ∧
    (initApp (Except.ok []) zeroRand).state.cards = List.replicate CARD_COUNT blankCard := by
  exact ⟨rfl, rfl, rfl⟩

/-- C2 (code behaviour at the failing input): seeding a full grid from a
single entity binds exactly two slots, yet a click on the unbound slot 2
is not ignored: the slot is flipped to revealed and recorded as the
pending first selection, contradicting the claim that unbound slots are
not selectable. -/
theorem underSeeded_click_unbound :
    boundSlotCount exUnderSeeded = 2 ∧
    (getCard exUnderSeeded 2).pokemon = none ∧
    (getCard exUnderSeeded 2).flipped = false ∧
    (getCard (handleCardClick exUnderSeeded 2) 2).flipped = true ∧
    (handleCardClick exUnderSeeded 2).firstSelectedCard = some 2 := by
  exact ⟨by decide, by decide, by decide, by decide, by decide⟩

/-! ## Projection and counting lemmas for the state machine -/

theorem length_modifyCard (s : GameState) (i : Nat) (g : Card → Card) :
    (modifyCard s i g).cards.length = s.cards.length := by
  simp [modifyCard]

theorem getCard_modifyCard_self (s : GameState) (i : Nat) (g : Card → Card)
    (h : i < s.cards.length) : getCard (modifyCard s i g) i = g (getCard s i) := by
  simp only [getCard, modifyCard]
  exact getD_set_self _ _ _ h

theorem getCard_modifyCard_ne (s : GameState) (i j : Nat) (g : Card → Card)
    (h : i ≠ j) : getCard (modifyCard s i g) j = getCard s j := by
  simp only [getCard, modifyCard]
  exact getD_set_ne _ _ _ _ h

theorem countP_set_preserve (p : Card → Bool) (g : Card → Card) (hg : ∀ c, p (g c) = p c) :
    ∀ (l : List Card) (i : Nat),
      (l.set i (g (l.getD i default))).countP p = l.countP p := by
  intro l
  induction l with
  | nil => intro i; rfl
  | cons c t ih =>
    intro i
    cases i with
    | zero =>
      simp only [List.getD_cons_zero, List.set_cons_zero, List.countP_cons, hg]
    | succ n =>
      simp only [List.getD_cons_succ, List.set_cons_succ, List.countP_cons, ih n]

theorem countP_set_true (p : Card → Bool) (g : Card → Card) (hg : ∀ c, p (g c) = true) :
    ∀ (l : List Card) (i : Nat), i < l.length → p (l.getD i default) = false →
      (l.set i (g (l.getD i default))).countP p = l.countP p + 1 := by
  intro l
  induction l with
  | nil => intro i h; simp at h
  | cons c t ih =>
    intro i h hf
    cases i with
    | zero =>
      simp only [List.getD_cons_zero] at hf
      simp only [List.getD_cons_zero, List.set_cons_zero, List.countP_cons, hg, hf]
      simp
    | succ n =>
      simp only [List.getD_cons_succ] at hf
      simp only [List.getD_cons_succ, List.set_cons_succ, List.countP_cons,
        ih n (by simpa using h) hf]
      omega

theorem countMatched_modify_pres (s : GameState) (i : Nat) (g : Card → Card)
    (hg : ∀ c, (g c).matched = c.matched) :
    countMatched (modifyCard s i g) = countMatched s := by
  simp only [countMatched, modifyCard]
  exact countP_set_preserve _ g hg s.cards i

theorem countMatched_modify_true (s : GameState) (i : Nat) (g : Card → Card)
    (h : i < s.cards.length) (hm : (getCard s i).matched = false)
    (hg : ∀ c, (g c).matched = true) :
    countMatched (modifyCard s i g) = countMatched s + 1 := by
  simp only [countMatched, modifyCard]
  exact countP_set_true _ g hg s.cards i h hm

theorem getD_eq_default {α : Type} [Inhabited α] :
    ∀ (l : List α) (i : Nat), l.length ≤ i → l.getD i default = default := by
  intro l
  induction l with
  | nil => intro i _; rfl
  | cons c t ih =>
    intro i h
    cases i with
    | zero => simp at h
    | succ n =>
      simp only [List.getD_cons_succ]
      exact ih n (by simpa using h)

theorem getCard_eq_of_cards (s1 s2 : GameState) (j : Nat) (h : s1.cards = s2.cards) :
    getCard s1 j = getCard s2 j := by
  simp [getCard, h]

theorem getCard_modify_projEq {β : Type} (pr : Card → β) (s : GameState) (i j : Nat)
    (g : Card → Card) (hg : ∀ k, pr (g k) = pr k) :
    pr (getCard (modifyCard s i g) j) = pr (getCard s j) := by
  by_cases hij : i = j
  · subst hij
    by_cases hi : i < s.cards.length
    · rw [getCard_modifyCard_self s i g hi, hg]
    · have h1 : getCard (modifyCard s i g) i = default := by
        simp only [getCard]
        exact getD_eq_default _ _ (by rw [length_modifyCard]; omega)
      have h2 : getCard s i = default := by
        simp only [getCard]
        exact getD_eq_default _ _ (by omega)
      rw [h1, h2]
  · rw [getCard_modifyCard_ne s i j g hij]

theorem handleMatch_matchedPairs (s : GameState) (f c : Nat) :
    (handleMatch s f c).matchedPairs = s.matchedPairs + 1 := by
  simp only [handleMatch, checkComplete, resetSelection]
  split <;> rfl

theorem handleMatch_first (s : GameState) (f c : Nat) :
    (handleMatch s f c).firstSelectedCard = none := rfl

theorem handleMatch_second (s : GameState) (f c : Nat) :
    (handleMatch s f c).secondSelectedCard = none := rfl

theorem handleMatch_lock (s : GameState) (f c : Nat) :
    (handleMatch s f c).isProcessingPair = s.isProcessingPair := by
  simp only [handleMatch, checkComplete, resetSelection]
  split <;> rfl

theorem handleMatch_cards (s : GameState) (f c : Nat) :
    (handleMatch s f c).cards = (matchCard (matchCard s f) c).cards := by
  simp only [handleMatch, checkComplete, resetSelection]
  split <;> rfl

theorem handleMatch_pending (s : GameState) (f c : Nat) :
    (handleMatch s f c).completePending =
      (if s.matchedPairs + 1 = TOTAL_PAIRS then true else s.completePending) := by
  simp only [handleMatch, checkComplete, resetSelection]
  split <;> rfl

theorem resolveMismatch_matchedPairs (s : GameState) :
    (resolveMismatch s).matchedPairs = s.matchedPairs := by
  unfold resolveMismatch
  split
  · split <;> rfl
  · rfl

theorem resolveMismatch_pending (s : GameState) :
    (resolveMismatch s).completePending = s.completePending := by
  unfold resolveMismatch
  split
  · split <;> rfl
  · rfl

theorem click_flipped_noop (s : GameState) (i : Nat)
    (h : (getCard s i).flipped = true) : handleCardClick s i = s := by
  unfold handleCardClick
  by_cases hi : i < s.cards.length
  · simp [hi, h]
  · simp [hi]

theorem click_matched_noop (s : GameState) (i : Nat)
    (h : (getCard s i).matched = true) : handleCardClick s i = s := by
  unfold handleCardClick
  by_cases hi : i < s.cards.length
  · simp [hi, h]
  · simp [hi]

theorem click_locked_noop (s : GameState) (i : Nat)
    (h : s.isProcessingPair = true) : handleCardClick s i = s := by
  unfold handleCardClick
  by_cases hi : i < s.cards.length
  · simp [hi, h]
  · simp [hi]

theorem click_oob_noop (s : GameState) (i : Nat)
    (h : ¬ i < s.cards.length) : handleCardClick s i = s := by
  unfold handleCardClick
  simp [h]

theorem getCard_checkForMatch_flipped (s : GameState) (f c j : Nat) :
    (getCard (checkForMatch s f c) j).flipped = (getCard s j).flipped := by
  unfold checkForMatch
  split
  · split
    · rw [getCard_eq_of_cards (handleMatch s f c) (matchCard (matchCard s f) c) j
        (handleMatch_cards s f c)]
      unfold matchCard
      rw [getCard_modify_projEq Card.flipped
          (modifyCard s f (fun k => { k with matched := true })) c j
          (fun k => { k with matched := true }) (fun k => rfl),
        getCard_modify_projEq Card.flipped s f j
          (fun k => { k with matched := true }) (fun k => rfl)]
    · rfl
  · rfl

theorem getCard_setFirst (s : GameState) (v : Option Nat) (j : Nat) :
    getCard { s with firstSelectedCard := v } j = getCard s j := rfl

theorem getCard_setSecond (s : GameState) (v : Option Nat) (j : Nat) :
    getCard { s with secondSelectedCard := v } j = getCard s j := rfl

theorem click_sets_flipped (s : GameState) (i : Nat) (hi : i < s.cards.length)
    (hg1 : (getCard s i).flipped = false) (hg2 : (getCard s i).matched = false)
    (hl : s.isProcessingPair = false) :
    (getCard (handleCardClick s i) i).flipped = true := by
  unfold handleCardClick
  simp only [hi, if_true, hg1, hg2, hl, Bool.or_self, Bool.false_eq_true, if_false]
  cases hf : s.firstSelectedCard with
  | none =>
    rw [getCard_setFirst]
    unfold flipCard
    rw [getCard_modifyCard_self s i (fun k => { k with flipped := true }) hi]
  | some f =>
    by_cases hfi : f = i
    · simp only [hfi, if_true]
      unfold flipCard
      rw [getCard_modifyCard_self s i (fun k => { k with flipped := true }) hi]
    · simp only [hfi, if_false]
      rw [getCard_checkForMatch_flipped, getCard_setSecond]
      unfold flipCard
      rw [getCard_modifyCard_self s i (fun k => { k with flipped := true }) hi]

/-! ## Claim theorem: ignored clicks -/

/-- C5: a click on a slot that is already revealed, on a slot that is
already matched, any click while the mismatch-resolution lock is
engaged, and clicking the same slot twice as both picks are all no-ops:
the entire session state (slot visibilities, pending selections,
counter) is unchanged.  The fourth conjunct covers the same-slot case:
a second click on the slot just clicked leaves the state exactly as
after the first click. -/
theorem handleCardClick_noops (s : GameState) (i : Nat) :
    ((getCard s i).flipped = true → handleCardClick s i = s) ∧
    ((getCard s i).matched = true → handleCardClick s i = s) ∧
    (s.isProcessingPair = true → handleCardClick s i = s) ∧
    handleCardClick (handleCardClick s i) i = handleCardClick s i := by
  refine ⟨click_flipped_noop s i, click_matched_noop s i, click_locked_noop s i, ?_⟩
  by_cases hi : i < s.cards.length
  · by_cases h1 : (getCard s i).flipped = true
    · rw [click_flipped_noop s i h1]
      exact click_flipped_noop s i h1
    · by_cases h2 : (getCard s i).matched = true
      · rw [click_matched_noop s i h2]
        exact click_matched_noop s i h2
      · by_cases h3 : s.isProcessingPair = true
        · rw [click_locked_noop s i h3]
          exact click_locked_noop s i h3
        · have h1' : (getCard s i).flipped = false := by
            revert h1; cases (getCard s i).flipped <;> simp
          have h2' : (getCard s i).matched = false := by
            revert h2; cases (getCard s i).matched <;> simp
          have h3' : s.isProcessingPair = false := by
            revert h3; cases s.isProcessingPair <;> simp
          exact click_flipped_noop _ i (click_sets_flipped s i hi h1' h2' h3')
  · rw [click_oob_noop s i hi]
    exact click_oob_noop s i hi

/-- C5 witness: clicking the already revealed slot 0 of a concrete board
changes nothing. -/
theorem handleCardClick_noops_witness :
    (getCard exFlipped 0).flipped = true ∧ handleCardClick exFlipped 0 = exFlipped :=
  ⟨by decide, (handleCardClick_noops exFlipped 0).1 (by decide)⟩

theorem click_with_first (t : GameState) (f c : Nat) (p2 : Pokemon)
    (hc : c < t.cards.length)
    (h2 : getCard t c = hiddenCard p2)
    (hfirst : t.firstSelectedCard = some f)
    (hlock : t.isProcessingPair = false)
    (hfc : ¬ f = c) :
    handleCardClick t c =
      checkForMatch { modifyCard t c (fun k => { k with flipped := true }) with
        secondSelectedCard := some c } f c := by
  have hflip : (getCard t c).flipped = false := by rw [h2]; rfl
  have hmat : (getCard t c).matched = false := by rw [h2]; rfl
  unfold handleCardClick flipCard
  simp [hc, hflip, hmat, hfirst, hlock, hfc]

theorem checkForMatch_reduce (t : GameState) (f c : Nat) (p1 p2 : Pokemon)
    (hfp : (getCard t f).pokemon = some p1) (hcp : (getCard t c).pokemon = some p2) :
    checkForMatch t f c = if p1.id = p2.id then handleMatch t f c else handleNonMatch t := by
  unfold checkForMatch
  rw [hfp, hcp]

theorem resolveMismatch_reduce (t : GameState) (f c : Nat)
    (hl : t.isProcessingPair = true) (hfi : t.firstSelectedCard = some f)
    (hs : t.secondSelectedCard = some c) :
    resolveMismatch t =
      { resetSelection (unflipCard (unflipCard t f) c) with isProcessingPair := false } := by
  unfold resolveMismatch
  rw [hl, hfi, hs]
  rfl

/-! ## Claim theorem: match / mismatch resolution -/

/-- C3: from a clean board, revealing a first bound slot and then a
second, distinct bound slot compares the two bound identifiers.  Equal
identifiers: both slots become matched, the counter increments by
exactly one, and the pending selections clear immediately with no lock
taken.  Unequal identifiers: the lock engages with the counter
untouched, and when the delayed resolution fires both slots return to
hidden (neither is matched), the pending selections clear, the lock
releases, and the counter is unchanged. -/
theorem resolveSelection_spec (s : GameState) (f c : Nat) (p1 p2 : Pokemon)
    (hf : f < s.cards.length) (hc : c < s.cards.length) (hfc : ¬ f = c)
    (h1 : getCard s f = hiddenCard p1) (h2 : getCard s c = hiddenCard p2)
    (hfirst : s.firstSelectedCard = none) (hlock : s.isProcessingPair = false) :
    (p1.id = p2.id →
      (getCard (handleCardClick (handleCardClick s f) c) f).matched = true ∧
      (getCard (handleCardClick (handleCardClick s f) c) c).matched = true ∧
      (handleCardClick (handleCardClick s f) c).matchedPairs = s.matchedPairs + 1 ∧
      (handleCardClick (handleCardClick s f) c).firstSelectedCard = none ∧
      (handleCardClick (handleCardClick s f) c).secondSelectedCard = none ∧
      (handleCardClick (handleCardClick s f) c).isProcessingPair = false) ∧
    (¬ p1.id = p2.id →
      (handleCardClick (handleCardClick s f) c).isProcessingPair = true ∧
      (handleCardClick (handleCardClick s f) c).matchedPairs = s.matchedPairs ∧
      (getCard (resolveMismatch (handleCardClick (handleCardClick s f) c)) f).flipped = false ∧
      (getCard (resolveMismatch (handleCardClick (handleCardClick s f) c)) f).matched = false ∧
      (getCard (resolveMismatch (handleCardClick (handleCardClick s f) c)) c).flipped = false ∧
      (getCard (resolveMismatch (handleCardClick (handleCardClick s f) c)) c).matched = false ∧
      (resolveMismatch (handleCardClick (handleCardClick s f) c)).firstSelectedCard = none ∧
      (resolveMismatch (handleCardClick (handleCardClick s f) c)).secondSelectedCard = none ∧
      (resolveMismatch (handleCardClick (handleCardClick s f) c)).isProcessingPair = false ∧
      (resolveMismatch (handleCardClick (handleCardClick s f) c)).matchedPairs = s.matchedPairs) := by
  have hflip1 : (getCard s f).flipped = false := by rw [h1]; rfl
  have hmat1 : (getCard s f).matched = false := by rw [h1]; rfl
  have e1 : handleCardClick s f =
      { modifyCard s f (fun k => { k with flipped := true }) with firstSelectedCard := some f } := by
    unfold handleCardClick flipCard
    simp [hf, hflip1, hmat1, hfirst, hlock]
  have e1len : (handleCardClick s f).cards.length = s.cards.length := by
    rw [e1]
    exact length_modifyCard s f (fun k => { k with flipped := true })
  have e1c : getCard (handleCardClick s f) c = hiddenCard p2 := by
    rw [e1, getCard_setFirst, getCard_modifyCard_ne s f c _ hfc, h2]
  have e1f : getCard (handleCardClick s f) f = { hiddenCard p1 with flipped := true } := by
    rw [e1, getCard_setFirst, getCard_modifyCard_self s f _ hf, h1]
  have e1first : (handleCardClick s f).firstSelectedCard = some f := by rw [e1]
  have e1lock : (handleCardClick s f).isProcessingPair = false := by rw [e1]; exact hlock
  have e1mp : (handleCardClick s f).matchedPairs = s.matchedPairs := by rw [e1]; rfl
  have e2 : handleCardClick (handleCardClick s f) c =
      checkForMatch { modifyCard (handleCardClick s f) c (fun k => { k with flipped := true })
        with secondSelectedCard := some c } f c :=
    click_with_first (handleCardClick s f) f c p2 (by rw [e1len]; exact hc) e1c e1first e1lock hfc
  have hcf : ¬ c = f := fun h => hfc h.symm
  have hcT : c < (handleCardClick s f).cards.length := by rw [e1len]; exact hc
  have hBf : getCard { modifyCard (handleCardClick s f) c (fun k => { k with flipped := true })
      with secondSelectedCard := some c } f = { hiddenCard p1 with flipped := true } := by
    rw [getCard_setSecond, getCard_modifyCard_ne (handleCardClick s f) c f _ hcf, e1f]
  have hBc : getCard { modifyCard (handleCardClick s f) c (fun k => { k with flipped := true })
      with secondSelectedCard := some c } c = { hiddenCard p2 with flipped := true } := by
    rw [getCard_setSecond, getCard_modifyCard_self (handleCardClick s f) c _ hcT, e1c]
  have hBfp : (getCard { modifyCard (handleCardClick s f) c (fun k => { k with flipped := true })
      with secondSelectedCard := some c } f).pokemon = some p1 := by rw [hBf]; rfl
  have hBcp : (getCard { modifyCard (handleCardClick s f) c (fun k => { k with flipped := true })
      with secondSelectedCard := some c } c).pokemon = some p2 := by rw [hBc]; rfl
  have hBmp : ({ modifyCard (handleCardClick s f) c (fun k => { k with flipped := true })
      with secondSelectedCard := some c } : GameState).matchedPairs = s.matchedPairs := e1mp
  have hBlock : ({ modifyCard (handleCardClick s f) c (fun k => { k with flipped := true })
      with secondSelectedCard := some c } : GameState).isProcessingPair = false := e1lock
  have hBfirst : ({ modifyCard (handleCardClick s f) c (fun k => { k with flipped := true })
      with secondSelectedCard := some c } : GameState).firstSelectedCard = some f := e1first
  have hBlen : ({ modifyCard (handleCardClick s f) c (fun k => { k with flipped := true })
      with secondSelectedCard := some c } : GameState).cards.length = s.cards.length := by
    rw [show ({ modifyCard (handleCardClick s f) c (fun k => { k with flipped := true })
      with secondSelectedCard := some c } : GameState).cards.length =
      (modifyCard (handleCardClick s f) c (fun k => { k with flipped := true })).cards.length
      from rfl, length_modifyCard]
    exact e1len
  have e3 := checkForMatch_reduce _ f c p1 p2 hBfp hBcp
  constructor
  · intro hid
    have e4 : handleCardClick (handleCardClick s f) c =
        handleMatch { modifyCard (handleCardClick s f) c (fun k => { k with flipped := true })
          with secondSelectedCard := some c } f c := by
      rw [e2, e3, if_pos hid]
    have hfB : f < ({ modifyCard (handleCardClick s f) c (fun k => { k with flipped := true })
        with secondSelectedCard := some c } : GameState).cards.length := by
      rw [hBlen]; exact hf
    have hcB : c < ({ modifyCard (handleCardClick s f) c (fun k => { k with flipped := true })
        with secondSelectedCard := some c } : GameState).cards.length := by
      rw [hBlen]; exact hc
    refine ⟨?_, ?_, ?_, ?_, ?_, ?_⟩
    · rw [e4, getCard_eq_of_cards _ _ f (handleMatch_cards _ f c)]
      unfold matchCard
      rw [getCard_modifyCard_ne _ c f _ hcf,
        getCard_modifyCard_self _ f _ hfB]
    · rw [e4, getCard_eq_of_cards _ _ c (handleMatch_cards _ f c)]
      unfold matchCard
      rw [getCard_modifyCard_self _ c _ (by rw [length_modifyCard]; exact hcB)]
    · rw [e4, handleMatch_matchedPairs, hBmp]
    · rw [e4, handleMatch_first]
    · rw [e4, handleMatch_second]
    · rw [e4, handleMatch_lock]; exact hBlock
  · intro hid
    have e4 : handleCardClick (handleCardClick s f) c =
        handleNonMatch { modifyCard (handleCardClick s f) c (fun k => { k with flipped := true })
          with secondSelectedCard := some c } := by
      rw [e2, e3, if_neg hid]
    have e5 : resolveMismatch (handleCardClick (handleCardClick s f) c) =
        { resetSelection (unflipCard (unflipCard
            (handleCardClick (handleCardClick s f) c) f) c)
          with isProcessingPair := false } := by
      apply resolveMismatch_reduce
      · rw [e4]; rfl
      · rw [e4]; exact hBfirst
      · rw [e4]; rfl
    have hlen4 : (handleCardClick (handleCardClick s f) c).cards.length = s.cards.length := by
      rw [e4]; exact hBlen
    have h4f : getCard (handleCardClick (handleCardClick s f) c) f =
        { hiddenCard p1 with flipped := true } := by
      rw [e4]; exact hBf
    have h4c : getCard (handleCardClick (handleCardClick s f) c) c =
        { hiddenCard p2 with flipped := true } := by
      rw [e4]; exact hBc
    have hfl4 : f < (handleCardClick (handleCardClick s f) c).cards.length := by
      rw [hlen4]; exact hf
    have hc4 : c < (handleCardClick (handleCardClick s f) c).cards.length := by
      rw [hlen4]; exact hc
    have hu_f : getCard (unflipCard (unflipCard
        (handleCardClick (handleCardClick s f) c) f) c) f =
        { hiddenCard p1 with flipped := false } := by
      unfold unflipCard
      rw [getCard_modifyCard_ne _ c f _ hcf, getCard_modifyCard_self _ f _ hfl4, h4f]
    have hu_c : getCard (unflipCard (unflipCard
        (handleCardClick (handleCardClick s f) c) f) c) c =
        { hiddenCard p2 with flipped := false } := by
      unfold unflipCard
      rw [getCard_modifyCard_self _ c _ (by rw [length_modifyCard]; exact hc4),
        getCard_modifyCard_ne _ f c _ hfc, h4c]
    have hgu : ∀ j : Nat, getCard { resetSelection (unflipCard (unflipCard
        (handleCardClick (handleCardClick s f) c) f) c)
        with isProcessingPair := false } j =
        getCard (unflipCard (unflipCard
          (handleCardClick (handleCardClick s f) c) f) c) j := fun j => rfl
    refine ⟨?_, ?_, ?_, ?_, ?_, ?_, ?_, ?_, ?_, ?_⟩
    · rw [e4]; rfl
    · rw [e4]; exact hBmp
    · rw [e5, hgu f, hu_f]
      try rfl
    · rw [e5, hgu f, hu_f]
      try rfl
    · rw [e5, hgu c, hu_c]
      try rfl
    · rw [e5, hgu c, hu_c]
      try rfl
    · rw [e5]
      try rfl
    · rw [e5]
      try rfl
    · rw [e5]
      try rfl
    · rw [e5]
      rw [show ({ resetSelection (unflipCard (unflipCard
          (handleCardClick (handleCardClick s f) c) f) c)
          with isProcessingPair := false } : GameState).matchedPairs =
          (handleCardClick (handleCardClick s f) c).matchedPairs from rfl, e4]
      exact hBmp

/-- C3 witness: on a concrete four-card board, revealing the two slots
bound to identifier 7 matches them and bumps the counter, while
revealing the slots bound to 7 and 12 locks input and, after the timer,
leaves the counter unchanged. -/
theorem resolveSelection_spec_witness :
    (getCard (handleCardClick (handleCardClick exBoard 0) 1) 0).matched = true ∧
    (handleCardClick (handleCardClick exBoard 0) 1).matchedPairs = exBoard.matchedPairs + 1 ∧
    (handleCardClick (handleCardClick exBoard 0) 2).isProcessingPair = true ∧
    (resolveMismatch (handleCardClick (handleCardClick exBoard 0) 2)).matchedPairs =
      exBoard.matchedPairs := by
  have hm := resolveSelection_spec exBoard 0 1 mew mew (by decide) (by decide) (by decide)
    (by decide) (by decide) rfl rfl
  have hn := resolveSelection_spec exBoard 0 2 mew butterfree (by decide) (by decide) (by decide)
    (by decide) (by decide) rfl rfl
  exact ⟨(hm.1 rfl).1, (hm.1 rfl).2.2.1, (hn.2 (by decide)).1,
    (hn.2 (by decide)).2.2.2.2.2.2.2.2.2⟩

/-! ## Counter monotonicity and the session invariant -/

theorem checkForMatch_mp_ge (s : GameState) (f c : Nat) :
    s.matchedPairs ≤ (checkForMatch s f c).matchedPairs := by
  unfold checkForMatch
  split
  · split
    · rw [handleMatch_matchedPairs]
      omega
    · exact Nat.le_refl _
  · exact Nat.le_refl _

theorem click_mp_ge (s : GameState) (i : Nat) :
    s.matchedPairs ≤ (handleCardClick s i).matchedPairs := by
  unfold handleCardClick
  by_cases hi : i < s.cards.length
  · simp only [hi, if_true]
    split
    · exact Nat.le_refl _
    · split
      · exact Nat.le_refl _
      · split
        · exact Nat.le_refl _
        · rename_i f0 hfeq
          split
          · exact Nat.le_refl _
          · exact checkForMatch_mp_ge
              { flipCard s i with secondSelectedCard := some i } f0 i
  · simp only [hi, if_false]
    exact Nat.le_refl _

theorem step_mp_ge (s s' : GameState) (hs : Step s s') :
    s.matchedPairs ≤ s'.matchedPairs := by
  cases hs with
  | click i => exact click_mp_ge s i
  | timer => exact Nat.le_of_eq (resolveMismatch_matchedPairs s).symm

theorem sessionInv_init (s : GameState) (h : InitSeeded s) : SessionInv s := by
  obtain ⟨hlen, hcards, hf, hs, hl, hmp, hcp⟩ := h
  refine ⟨hlen, ?_, ?_, ?_⟩
  · rw [hmp]
    have hz : countMatched s = 0 := by
      apply List.countP_eq_zero.mpr
      intro a ha
      simp [(hcards a ha).2]
    rw [hz]
  · rw [hcp, hmp]
    simp [TOTAL_PAIRS]
  · intro f hf'
    rw [hf] at hf'
    exact Option.noConfusion hf'

theorem sessionInv_timer (s : GameState) (h : SessionInv s) :
    SessionInv (resolveMismatch s) := by
  obtain ⟨hlen, hcount, hflag, hfst⟩ := h
  unfold resolveMismatch
  split
  · split
    · rename_i f c heq1 heq2
      refine ⟨?_, ?_, hflag, ?_⟩
      · show (unflipCard (unflipCard s f) c).cards.length = CARD_COUNT
        unfold unflipCard
        rw [length_modifyCard, length_modifyCard]
        exact hlen
      · show 2 * s.matchedPairs = countMatched (unflipCard (unflipCard s f) c)
        unfold unflipCard
        rw [countMatched_modify_pres (modifyCard s f (fun k => { k with flipped := false })) c
            (fun k => { k with flipped := false }) (fun k => rfl),
          countMatched_modify_pres s f (fun k => { k with flipped := false }) (fun k => rfl)]
        exact hcount
      · intro f' hf'
        exact Option.noConfusion hf'
    · refine ⟨hlen, hcount, hflag, ?_⟩
      intro f' hf'
      exact Option.noConfusion hf'
  · exact ⟨hlen, hcount, hflag, hfst⟩

theorem sessionInv_click (s : GameState) (i : Nat) (hv : SessionInv s) :
    SessionInv (handleCardClick s i) := by
  obtain ⟨hlen, hcount, hflag, hfst⟩ := hv
  by_cases hi : i < s.cards.length
  · by_cases hg1 : (getCard s i).flipped = true
    · rw [click_flipped_noop s i hg1]
      exact ⟨hlen, hcount, hflag, hfst⟩
    · by_cases hg2 : (getCard s i).matched = true
      · rw [click_matched_noop s i hg2]
        exact ⟨hlen, hcount, hflag, hfst⟩
      · by_cases hg3 : s.isProcessingPair = true
        · rw [click_locked_noop s i hg3]
          exact ⟨hlen, hcount, hflag, hfst⟩
        · have hflip : (getCard s i).flipped = false := by
            revert hg1; cases (getCard s i).flipped <;> simp
          have hmatch : (getCard s i).matched = false := by
            revert hg2; cases (getCard s i).matched <;> simp
          have hlock : s.isProcessingPair = false := by
            revert hg3; cases s.isProcessingPair <;> simp
          unfold handleCardClick flipCard
          simp only [hi, if_true, hflip, hmatch, hlock, Bool.or_self, Bool.false_eq_true,
            if_false]
          cases hfs : s.firstSelectedCard with
          | none =>
            refine ⟨?_, ?_, ?_, ?_⟩
            · show (modifyCard s i (fun k => { k with flipped := true })).cards.length =
                CARD_COUNT
              rw [length_modifyCard]; exact hlen
            · show 2 * s.matchedPairs =
                countMatched (modifyCard s i (fun k => { k with flipped := true }))
              rw [countMatched_modify_pres s i (fun k => { k with flipped := true })
                (fun k => rfl)]
              exact hcount
            · exact hflag
            · intro f hf'
              have hif : i = f := Option.some.inj hf'
              subst hif
              refine ⟨?_, ?_, ?_⟩
              · show i < (modifyCard s i (fun k => { k with flipped := true })).cards.length
                rw [length_modifyCard]; exact hi
              · show (getCard (modifyCard s i (fun k => { k with flipped := true })) i).flipped =
                  true
                rw [getCard_modifyCard_self s i _ hi]
              · show (getCard (modifyCard s i (fun k => { k with flipped := true })) i).matched =
                  false
                rw [getCard_modifyCard_self s i _ hi]
                exact hmatch
          | some f0 =>
            by_cases hfi : f0 = i
            · have hx := (hfst f0 hfs).2.1
              rw [hfi, hflip] at hx
              exact absurd hx (by decide)
            · simp only [hfi, if_false]
              obtain ⟨hf0len, hf0flip, hf0match⟩ := hfst f0 hfs
              have hne_if0 : ¬ i = f0 := fun hh => hfi hh.symm
              have hBf0 : getCard { modifyCard s i (fun k => { k with flipped := true })
                  with secondSelectedCard := some i } f0 = getCard s f0 := by
                rw [getCard_setSecond, getCard_modifyCard_ne s i f0 _ hne_if0]
              have hBi : getCard { modifyCard s i (fun k => { k with flipped := true })
                  with secondSelectedCard := some i } i =
                  { getCard s i with flipped := true } := by
                rw [getCard_setSecond, getCard_modifyCard_self s i _ hi]
              unfold checkForMatch
              split
              · rename_i p1 p2 heq1 heq2
                split
                · refine ⟨?_, ?_, ?_, ?_⟩
                  · rw [show (handleMatch { modifyCard s i (fun k => { k with flipped := true })
                        with secondSelectedCard := some i } f0 i).cards =
                        (matchCard (matchCard { modifyCard s i
                            (fun k => { k with flipped := true })
                          with secondSelectedCard := some i } f0) i).cards from
                        handleMatch_cards _ f0 i]
                    unfold matchCard
                    rw [length_modifyCard, length_modifyCard]
                    show (modifyCard s i (fun k => { k with flipped := true })).cards.length =
                      CARD_COUNT
                    rw [length_modifyCard]; exact hlen
                  · have hf0B : f0 < ({ modifyCard s i (fun k => { k with flipped := true })
                        with secondSelectedCard := some i } : GameState).cards.length := by
                      show f0 <
                        (modifyCard s i (fun k => { k with flipped := true })).cards.length
                      rw [length_modifyCard]; exact hf0len
                    have hmB : (getCard { modifyCard s i (fun k => { k with flipped := true })
                        with secondSelectedCard := some i } f0).matched = false := by
                      rw [hBf0]; exact hf0match
                    have hiB : i < (matchCard { modifyCard s i
                        (fun k => { k with flipped := true })
                        with secondSelectedCard := some i } f0).cards.length := by
                      unfold matchCard
                      rw [length_modifyCard]
                      show i < (modifyCard s i (fun k => { k with flipped := true })).cards.length
                      rw [length_modifyCard]; exact hi
                    have hmiB : (getCard (matchCard { modifyCard s i
                        (fun k => { k with flipped := true })
                        with secondSelectedCard := some i } f0) i).matched = false := by
                      unfold matchCard
                      rw [getCard_modifyCard_ne _ f0 i _ hfi, hBi]
                      exact hmatch
                    have hstep2 : countMatched (matchCard (matchCard { modifyCard s i
                        (fun k => { k with flipped := true })
                        with secondSelectedCard := some i } f0) i) =
                        countMatched (matchCard { modifyCard s i
                          (fun k => { k with flipped := true })
                          with secondSelectedCard := some i } f0) + 1 :=
                      countMatched_modify_true _ i (fun k => { k with matched := true })
                        hiB hmiB (fun k => rfl)
                    have hstep1 : countMatched (matchCard { modifyCard s i
                        (fun k => { k with flipped := true })
                        with secondSelectedCard := some i } f0) =
                        countMatched ({ modifyCard s i (fun k => { k with flipped := true })
                          with secondSelectedCard := some i } : GameState) + 1 :=
                      countMatched_modify_true _ f0 (fun k => { k with matched := true })
                        hf0B hmB (fun k => rfl)
                    have hstepB : countMatched ({ modifyCard s i
                        (fun k => { k with flipped := true })
                        with secondSelectedCard := some i } : GameState) = countMatched s := by
                      show countMatched (modifyCard s i (fun k => { k with flipped := true })) =
                        countMatched s
                      exact countMatched_modify_pres s i (fun k => { k with flipped := true })
                        (fun k => rfl)
                    have hcm : countMatched (handleMatch { modifyCard s i
                        (fun k => { k with flipped := true })
                        with secondSelectedCard := some i } f0 i) =
                        countMatched (matchCard (matchCard { modifyCard s i
                          (fun k => { k with flipped := true })
                          with secondSelectedCard := some i } f0) i) := by
                      unfold countMatched
                      rw [handleMatch_cards _ f0 i]
                    rw [handleMatch_matchedPairs, hcm, hstep2, hstep1, hstepB]
                    have hmpB : ({ modifyCard s i (fun k => { k with flipped := true })
                        with secondSelectedCard := some i } : GameState).matchedPairs =
                        s.matchedPairs := rfl
                    rw [hmpB]
                    omega
                  · have hne6 : s.matchedPairs ≠ TOTAL_PAIRS := by
                      intro h6
                      have h12 : countMatched s = CARD_COUNT := by
                        rw [← hcount, h6]
                        rfl
                      have hall : ∀ a ∈ s.cards, (fun c => c.matched) a = true := by
                        apply List.countP_eq_length.mp
                        rw [hlen]
                        exact h12
                      have hmem : getCard s i ∈ s.cards := getD_mem s.cards i hi
                      have hx := hall (getCard s i) hmem
                      simp only at hx
                      rw [hmatch] at hx
                      exact absurd hx (by decide)
                    rw [handleMatch_pending, handleMatch_matchedPairs]
                    have hmpB : ({ modifyCard s i (fun k => { k with flipped := true })
                        with secondSelectedCard := some i } : GameState).matchedPairs =
                        s.matchedPairs := rfl
                    have hcpB : ({ modifyCard s i (fun k => { k with flipped := true })
                        with secondSelectedCard := some i } : GameState).completePending =
                        s.completePending := rfl
                    rw [hmpB, hcpB]
                    by_cases h6 : s.matchedPairs + 1 = TOTAL_PAIRS
                    · rw [if_pos h6]
                      simp [h6]
                    · rw [if_neg h6]
                      constructor
                      · intro hp
                        exact absurd (hflag.mp hp) hne6
                      · intro hh
                        exact absurd hh h6
                  · intro f hf'
                    rw [handleMatch_first] at hf'
                    exact Option.noConfusion hf'
                · refine ⟨?_, ?_, ?_, ?_⟩
                  · show (modifyCard s i (fun k => { k with flipped := true })).cards.length =
                      CARD_COUNT
                    rw [length_modifyCard]; exact hlen
                  · show 2 * s.matchedPairs =
                      countMatched (modifyCard s i (fun k => { k with flipped := true }))
                    rw [countMatched_modify_pres s i (fun k => { k with flipped := true })
                      (fun k => rfl)]
                    exact hcount
                  · exact hflag
                  · intro f hf'
                    have h' : s.firstSelectedCard = some f := hf'
                    rw [hfs] at h'
                    have hf0f : f0 = f := Option.some.inj h'
                    subst hf0f
                    refine ⟨?_, ?_, ?_⟩
                    · show f0 <
                        (modifyCard s i (fun k => { k with flipped := true })).cards.length
                      rw [length_modifyCard]; exact hf0len
                    · show (getCard { modifyCard s i (fun k => { k with flipped := true })
                        with secondSelectedCard := some i } f0).flipped = true
                      rw [hBf0]; exact hf0flip
                    · show (getCard { modifyCard s i (fun k => { k with flipped := true })
                        with secondSelectedCard := some i } f0).matched = false
                      rw [hBf0]; exact hf0match
              · refine ⟨?_, ?_, ?_, ?_⟩
                · show (modifyCard s i (fun k => { k with flipped := true })).cards.length =
                    CARD_COUNT
                  rw [length_modifyCard]; exact hlen
                · show 2 * s.matchedPairs =
                    countMatched (modifyCard s i (fun k => { k with flipped := true }))
                  rw [countMatched_modify_pres s i (fun k => { k with flipped := true })
                    (fun k => rfl)]
                  exact hcount
                · exact hflag
                · intro f hf'
                  exact Option.noConfusion hf'
  · rw [click_oob_noop s i hi]
    exact ⟨hlen, hcount, hflag, hfst⟩

theorem sessionInv_step (s s' : GameState) (hv : SessionInv s) (hs : Step s s') :
    SessionInv s' := by
  cases hs with
  | click i => exact sessionInv_click s i hv
  | timer => exact sessionInv_timer s hv

theorem reach_sessionInv (s0 s : GameState) (h0 : InitSeeded s0) (hr : Reach s0 s) :
    SessionInv s := by
  unfold Reach at hr
  induction hr with
  | refl => exact sessionInv_init s0 h0
  | tail hab hbc ih => exact sessionInv_step _ _ ih hbc

theorem sessionInv_mp_le (s : GameState) (hv : SessionInv s) :
    s.matchedPairs ≤ TOTAL_PAIRS := by
  obtain ⟨hlen, hcount, _, _⟩ := hv
  have hle : countMatched s ≤ s.cards.length := List.countP_le_length _
  rw [hlen] at hle
  have h12 : CARD_COUNT = 12 := rfl
  have h6 : TOTAL_PAIRS = 6 := rfl
  omega

/-! ## Claim theorem: the matched-pair counter -/

/-- C4: in every session state reachable from a freshly seeded deal, the
matched-pair counter never exceeds `TOTAL_PAIRS`; the completion message
is pending exactly when the counter equals `TOTAL_PAIRS` (so the
terminal complete state is triggered exactly when the counter first
reaches it, once per completed session); the counter is monotone under
every step (click or timer), stays at `TOTAL_PAIRS` once it gets there,
and is zeroed by the reset-and-redeal action. -/
theorem matchedPairs_counter_spec (s0 s : GameState) (h0 : InitSeeded s0) (hr : Reach s0 s) :
    s.matchedPairs ≤ TOTAL_PAIRS ∧
    (s.completePending ↔ s.matchedPairs = TOTAL_PAIRS) ∧
    (∀ s', Step s s' → s.matchedPairs ≤ s'.matchedPairs) ∧
    (s.matchedPairs = TOTAL_PAIRS → ∀ s', Step s s' → s'.matchedPairs = TOTAL_PAIRS) ∧
    (resetGame s).matchedPairs = 0 := by
  have hv := reach_sessionInv s0 s h0 hr
  refine ⟨sessionInv_mp_le s hv, hv.2.2.1, fun s' hs => step_mp_ge s s' hs, ?_, rfl⟩
  intro h6 s' hs
  have hv' := sessionInv_step s s' hv hs
  have hle := sessionInv_mp_le s' hv'
  have hge := step_mp_ge s s' hs
  omega

/-- C4 witness: the freshly seeded blank deal satisfies the counter
facts trivially, and resetting it zeroes the counter. -/
theorem matchedPairs_counter_spec_witness :
    InitSeeded exInit ∧ exInit.matchedPairs ≤ TOTAL_PAIRS ∧
    (exInit.completePending ↔ exInit.matchedPairs = TOTAL_PAIRS) ∧
    (resetGame exInit).matchedPairs = 0 := by
  have h := matchedPairs_counter_spec exInit exInit (by decide) Relation.ReflTransGen.refl
  exact ⟨by decide, h.1, h.2.1, h.2.2.2.2⟩
